import Mathlib

/-!
Shallow embedding of the doctor-appointment system core
(src/utils/time.js, src/utils/slotGenerator.js, src/controllers/bookingController.js,
src/controllers/slotController.js, src/models/Booking.js, src/models/Slot.js).

Conventions of the embedding:
* Calendar dates are local day indices (Int); the day-of-week of day d is d % 7
  (the anchoring offset is irrelevant to all properties proved here).
* Instants are counted in minutes (Int); Date.now() is passed in as a parameter.
* A JavaScript value that may be null/undefined, unparseable, or valid is modelled
  by an explicit inductive (TimeVal, DateVal, JsNum).
* The persistent stores are association lists; storage-level behaviour (the
  partial unique index on active bookings, the unique slot key, transactional
  commit-or-abort) is modelled explicitly in the commit functions.
-/

namespace DoctorApp

/-! ## Time utilities (src/utils/time.js) -/

/-- A time-of-day string value as consumed by parseTimeString:
absent (null / undefined / empty string, i.e. falsy), a truthy string that does
not parse to hour and minute numbers, or a string parsing to the given numbers.
parseInt may produce negative numbers, hence Int. -/
inductive TimeVal where
  | absent
  | invalid
  | valid (hours minutes : Int)
deriving DecidableEq

/-- A date value as consumed by buildDateTime: absent (falsy), a value whose
Date conversion is NaN, or a valid local calendar day index. -/
inductive DateVal where
  | absent
  | invalid
  | valid (day : Int)
deriving DecidableEq

/-- parseTimeString: null for a falsy or non-string input, null when either
split component parses to NaN, otherwise the hours and minutes. -/
def parseTimeString : TimeVal → Option (Int × Int)
  | .valid h m => some (h, m)
  | _ => none

/-- buildDateTime: null for a falsy date, null for an invalid date, null for an
unparseable time; otherwise the local instant obtained from the start of the
day via setHours(h, m, 0, 0) (which rolls over out-of-range values, matching
day * 1440 + h * 60 + m minutes). -/
def buildDateTime : DateVal → TimeVal → Option Int
  | .valid day, t =>
    match parseTimeString t with
    | some (h, m) => some (day * 1440 + h * 60 + m)
    | none => none
  | _, _ => none

inductive SlotStatus where
  | available
  | booked
  | blocked
deriving DecidableEq

/-- A slot document (models/Slot.js) as read by the booking controller:
times are raw string values, so they may be absent or unparseable. -/
structure SlotDoc where
  doctorId : Nat
  date : DateVal
  startTime : TimeVal
  endTime : TimeVal
  status : SlotStatus
deriving DecidableEq

/-- The JS expression slot.endTime || slot.startTime: the start time is used
only when the end time is falsy (absent). -/
def slotTimeStr (s : SlotDoc) : TimeVal :=
  match s.endTime with
  | .absent => s.startTime
  | t => t

/-- isSlotInPast: false when slot.date is falsy; otherwise combine the date
with endTime (falling back to startTime) and compare strictly against now;
false when the combination fails. -/
def isSlotInPast (s : SlotDoc) (now : Int) : Bool :=
  match s.date with
  | .absent => false
  | d =>
    match buildDateTime d (slotTimeStr s) with
    | some t => decide (t < now)
    | none => false

/-! ## Slot generator (src/utils/slotGenerator.js) -/

/-- A well-formed HH:mm clock time, as stored in a doctor availability window
(the schema requires these; parseTimeToMinutes assumes them parseable). -/
structure Hm where
  h : Nat
  m : Nat
deriving DecidableEq

/-- parseTimeToMinutes: minutes from midnight. -/
def parseTimeToMinutes (t : Hm) : Nat := t.h * 60 + t.m

/-- One availability window of a doctor (models/Doctor.js). -/
structure Window where
  dayOfWeek : Int
  startTime : Hm
  endTime : Hm
deriving DecidableEq

/-- A doctor document as consumed by the generator. -/
structure DoctorRec where
  id : Nat
  availability : List Window
deriving DecidableEq

/-- The inner generation loop, fuel-indexed so that it is structural: from t,
emit (t, t + dur) while t + dur fits below endMin. The JS loop does not
terminate for a nonpositive duration; generateSlotsForDoctor only calls this
with a positive duration, and with fuel endMin + 1 the fuel never runs out. -/
def windowSlotsAux : Nat → Nat → Nat → Nat → List (Nat × Nat)
  | 0, _, _, _ => []
  | fuel + 1, dur, endMin, t =>
    if t + dur ≤ endMin then (t, t + dur) :: windowSlotsAux fuel dur endMin (t + dur)
    else []

/-- The slots emitted for one availability window: walk from startMin in dur
increments, emitting each slot whose end fits inside the window. -/
def windowSlots (dur endMin startMin : Nat) : List (Nat × Nat) :=
  windowSlotsAux (endMin + 1) dur endMin startMin

/-- Day-of-week of a local day index (JS getDay, 0 to 6). -/
def dayOfWeek (d : Int) : Int := d % 7

/-- The inclusive day range walked by the generation loop. -/
def dayRange (s e : Int) : List Int :=
  (List.range (e + 1 - s).toNat).map (fun k => s + k)

/-- A generated slot record as inserted by the generator. -/
structure GenSlot where
  doctorId : Nat
  day : Int
  startMin : Nat
  endMin : Nat
  status : SlotStatus
  timezone : String
deriving DecidableEq

/-- Key equality for the unique index on (doctorId, date, startTime)
(models/Slot.js); startTime strings produced by formatMinutesToTime are equal
exactly when the minute values are. -/
def sameKey (a b : GenSlot) : Bool :=
  a.doctorId == b.doctorId && a.day == b.day && a.startMin == b.startMin

/-- Key membership in the slot store. -/
def hasKey (store : List GenSlot) (r : GenSlot) : Bool :=
  store.any (fun q => sameKey q r)

/-- The updateOne upsert with only a setOnInsert clause: when a record with
the same key exists nothing changes and upsertedCount is 0; otherwise the
record is inserted and upsertedCount is 1. -/
def upsertSlot (store : List GenSlot) (r : GenSlot) : Nat × List GenSlot :=
  if hasKey store r then (0, store) else (1, store ++ [r])

/-- Folding the upsert over every emitted record in order, accumulating
createdCount. -/
def insertAll (store : List GenSlot) : List GenSlot → Nat × List GenSlot
  | [] => (0, store)
  | r :: rs =>
    ((upsertSlot store r).1 + (insertAll (upsertSlot store r).2 rs).1,
     (insertAll (upsertSlot store r).2 rs).2)

/-- The uniqueness invariant of the slot store (the unique index on
(doctorId, date, startTime) of models/Slot.js): no two records share a key. -/
def KeysNodup (store : List GenSlot) : Prop :=
  store.Pairwise (fun a b => sameKey a b = false)

/-- A JS number value after coercion contexts: either NaN or an integer. -/
inductive JsNum where
  | nan
  | num (n : Int)
deriving DecidableEq

/-- The duration selection of slotGenerator.js line 50, including the default
parameter: an absent argument takes the default 30; otherwise the expression
Number(slotDurationMinutes) or-else 30 replaces only falsy results (0 and NaN)
by 30. -/
def effectiveDuration (slotDurationMinutes : Option JsNum) : Int :=
  match slotDurationMinutes with
  | none => 30
  | some .nan => 30
  | some (.num n) => if n = 0 then 30 else n

/-- Records emitted for one calendar day: each availability window whose
day-of-week matches, walked in duration increments. -/
def emittedForDay (doc : DoctorRec) (dur : Nat) (tz : String) (day : Int) : List GenSlot :=
  (doc.availability.filter (fun w => w.dayOfWeek == dayOfWeek day)).flatMap (fun w =>
    (windowSlots dur (parseTimeToMinutes w.endTime) (parseTimeToMinutes w.startTime)).map
      (fun p => { doctorId := doc.id, day := day, startMin := p.1, endMin := p.2,
                  status := SlotStatus.available, timezone := tz }))

/-- All records emitted over the inclusive date range. -/
def emittedSlots (doc : DoctorRec) (s e : Int) (dur : Nat) (tz : String) : List GenSlot :=
  (dayRange s e).flatMap (emittedForDay doc dur tz)

def toDay : DateVal → Option Int
  | .valid d => some d
  | _ => none

/-- generateSlotsForDoctor: validate the dates, then upsert every emitted slot,
returning the number actually inserted together with the resulting store.
For a nonpositive effective duration the JS walking loop does not terminate;
the embedding reports that case as an error. -/
def generateSlotsForDoctor (store : List GenSlot) (doctor : DoctorRec)
    (startDate endDate : DateVal) (slotDurationMinutes : Option JsNum)
    (timezone : String) : Except String (Nat × List GenSlot) :=
  match toDay startDate, toDay endDate with
  | some s, some e =>
    if e < s then Except.error "endDate must be after or equal to startDate"
    else
      if 0 < effectiveDuration slotDurationMinutes then
        Except.ok (insertAll store
          (emittedSlots doctor s e (effectiveDuration slotDurationMinutes).toNat timezone))
      else Except.error "slot generation loop does not terminate for a nonpositive duration"
  | _, _ => Except.error "Invalid startDate or endDate"

/-! ## Booking engine (src/controllers/bookingController.js, models/Booking.js) -/

inductive BStatus where
  | pending
  | confirmed
  | cancelled
  | completed
  | expired
deriving DecidableEq

/-- Membership of bookingStatus in the active set of the partial unique index
filter and of the pre-check queries: pending or confirmed. -/
def BStatus.isActive : BStatus → Bool
  | .pending => true
  | .confirmed => true
  | _ => false

/-- A booking document (models/Booking.js). -/
structure Booking where
  userId : Nat
  slotId : Nat
  doctorId : Nat
  bookingStatus : BStatus
  cancellationReason : Option String
deriving DecidableEq

/-- The authenticated principal as resolved by the auth middleware. -/
structure Actor where
  id : Nat
  isAdmin : Bool
deriving DecidableEq

/-- The shared persistent stores: slots and bookings keyed by id, the doctor
directory as the set of existing doctor ids, and the id allotted to the next
inserted booking. -/
structure DB where
  slots : List (Nat × SlotDoc)
  bookings : List (Nat × Booking)
  nextBookingId : Nat
  doctors : List Nat

def findSlot (db : DB) (sid : Nat) : Option SlotDoc :=
  (db.slots.find? (fun e => e.1 == sid)).map (fun e => e.2)

def findBooking (db : DB) (bid : Nat) : Option Booking :=
  (db.bookings.find? (fun e => e.1 == bid)).map (fun e => e.2)

/-- slot.status := st followed by slot.save, on an existing document. -/
def setSlotStatus (db : DB) (sid : Nat) (st : SlotStatus) : DB :=
  { db with slots := db.slots.map (fun e => if e.1 = sid then (e.1, { e.2 with status := st }) else e) }

/-- booking.save after in-memory mutation f, on an existing document. -/
def updBooking (db : DB) (bid : Nat) (f : Booking → Booking) : DB :=
  { db with bookings := db.bookings.map (fun e => if e.1 = bid then (e.1, f e.2) else e) }

/-- The pre-check query Booking.findOne with slotId and an active status:
does some active booking reference the slot. -/
def activeOn (db : DB) (sid : Nat) : Bool :=
  db.bookings.any (fun e => e.2.bookingStatus.isActive && e.2.slotId == sid)

/-- The reschedule pre-check query: some active booking other than bid
references the slot. -/
def activeOnExcept (db : DB) (sid bid : Nat) : Bool :=
  db.bookings.any (fun e => e.1 != bid && e.2.bookingStatus.isActive && e.2.slotId == sid)

/-- The outcome delivered to the caller, classified by the error taxonomy of
the spec: the 400 responses for an unavailable or already-booked slot are
Conflict, the 400 responses for past or wrong-status state are InvalidState,
404 is NotFound, 403 is Forbidden, and 500 is a generic server error. -/
inductive Res where
  | ok (bookingId : Nat)
  | notFound (msg : String)
  | invalidState (msg : String)
  | conflict (msg : String)
  | forbidden (msg : String)
  | serverError (msg : String)
deriving DecidableEq

def Res.isOk : Res → Bool
  | .ok _ => true
  | _ => false

/-- The transactional unit of createBooking (lines 84 to 133): set the slot
status to booked, insert the booking with status confirmed. The storage-level
partial unique index on slotId filtered to active statuses rejects the insert
exactly when an active booking already references the slot; on that duplicate
key error (code 11000) the transaction is aborted in full and the handler
returns the same conflict the pre-check produces. The doctorId recorded on
the booking is the one of the slot document the caller loaded. -/
def createCommit (db : DB) (userId sid docId : Nat) : Res × DB :=
  if activeOn db sid then
    (Res.conflict "Slot is already booked", db)
  else
    let db1 := setSlotStatus db sid SlotStatus.booked
    (Res.ok db.nextBookingId,
      { db1 with
        bookings := (db.nextBookingId,
          { userId := userId, slotId := sid, doctorId := docId,
            bookingStatus := BStatus.confirmed, cancellationReason := none }) :: db1.bookings,
        nextBookingId := db.nextBookingId + 1 })

/-- createBooking: load the slot, guard against past slots, require status
available, pre-check for an active booking, require the doctor to exist, then
run the transactional unit. -/
def createBooking (db : DB) (now : Int) (userId sid : Nat) : Res × DB :=
  match findSlot db sid with
  | none => (Res.notFound "Slot not found", db)
  | some slot =>
    if isSlotInPast slot now then (Res.invalidState "Cannot book a slot in the past", db)
    else if slot.status ≠ SlotStatus.available then
      (Res.conflict "Slot is not available for booking", db)
    else if activeOn db sid then (Res.conflict "Slot is already booked", db)
    else if slot.doctorId ∉ db.doctors then (Res.notFound "Doctor not found", db)
    else createCommit db userId sid slot.doctorId

/-- The conditional store of the cancellation reason: a given (truthy) reason
overwrites the field, an absent one leaves it untouched. -/
def cancelReasonUpdate (reason old : Option String) : Option String :=
  match reason with
  | some r => some r
  | none => old

/-- The transactional unit of cancelBooking (lines 273 to 309): set the
booking to cancelled, storing the reason when one is given (truthy), and set
the slot back to available when the slot still exists. No storage constraint
can reject these writes. -/
def cancelCommit (db : DB) (bid : Nat) (slotRef : Nat) (reason : Option String) : Res × DB :=
  let db1 := updBooking db bid (fun bk =>
    { bk with bookingStatus := BStatus.cancelled,
              cancellationReason := cancelReasonUpdate reason bk.cancellationReason })
  let db2 := match findSlot db1 slotRef with
    | some _ => setSlotStatus db1 slotRef SlotStatus.available
    | none => db1
  (Res.ok bid, db2)

/-- cancelBooking: load the booking, authorize owner or admin, reject terminal
statuses, guard against a past slot only when the slot still exists, then run
the transactional unit. -/
def cancelBooking (db : DB) (now : Int) (actor : Actor) (bid : Nat)
    (reason : Option String) : Res × DB :=
  match findBooking db bid with
  | none => (Res.notFound "Booking not found", db)
  | some b =>
    if ¬ actor.isAdmin ∧ b.userId ≠ actor.id then
      (Res.forbidden "Not authorized to cancel this booking", db)
    else if b.bookingStatus = BStatus.cancelled then
      (Res.invalidState "Booking is already cancelled", db)
    else if b.bookingStatus = BStatus.completed then
      (Res.invalidState "Cannot cancel a completed booking", db)
    else if b.bookingStatus = BStatus.expired then
      (Res.invalidState "Cannot cancel an expired booking", db)
    else
      match findSlot db b.slotId with
      | some cs =>
        if isSlotInPast cs now then
          (Res.invalidState "Cannot cancel a booking for a past slot", db)
        else cancelCommit db bid b.slotId reason
      | none => cancelCommit db bid b.slotId reason

/-- The transactional unit of rescheduleBooking (lines 441 to 478): free the
old slot when it exists, book the new slot, move the booking to the new slot.
The partial unique index rejects the booking update exactly when the updated
document is active and another active booking references the new slot; the
catch block of this handler does not translate the duplicate key error, so
the abort surfaces as the generic 500 response. -/
def rescheduleCommit (db : DB) (bid oldSid newSid : Nat) : Res × DB :=
  let indexRejects :=
    match findBooking db bid with
    | some bk => bk.bookingStatus.isActive && activeOnExcept db newSid bid
    | none => false
  if indexRejects then
    (Res.serverError "Server error while rescheduling booking", db)
  else
    let db1 := match findSlot db oldSid with
      | some _ => setSlotStatus db oldSid SlotStatus.available
      | none => db
    let db2 := setSlotStatus db1 newSid SlotStatus.booked
    (Res.ok bid, updBooking db2 bid (fun bk => { bk with slotId := newSid }))

/-- rescheduleBooking: load the booking, authorize the owner only, reject
terminal statuses, guard against a past current slot when it exists, load the
new slot, guard against a past new slot, require it available, pre-check for
another active booking, require the same doctor, then run the transactional
unit. -/
def rescheduleBooking (db : DB) (now : Int) (actor : Actor) (bid newSid : Nat) : Res × DB :=
  match findBooking db bid with
  | none => (Res.notFound "Booking not found", db)
  | some b =>
    if b.userId ≠ actor.id then
      (Res.forbidden "Not authorized to reschedule this booking", db)
    else if b.bookingStatus = BStatus.cancelled then
      (Res.invalidState "Cannot reschedule a cancelled booking", db)
    else if b.bookingStatus = BStatus.completed then
      (Res.invalidState "Cannot reschedule a completed booking", db)
    else if b.bookingStatus = BStatus.expired then
      (Res.invalidState "Cannot reschedule an expired booking", db)
    else
      let curPast := match findSlot db b.slotId with
        | some cs => isSlotInPast cs now
        | none => false
      if curPast then (Res.invalidState "Cannot reschedule a booking for a past slot", db)
      else
        match findSlot db newSid with
        | none => (Res.notFound "New slot not found", db)
        | some ns =>
          if isSlotInPast ns now then (Res.invalidState "Cannot reschedule to a past slot", db)
          else if ns.status ≠ SlotStatus.available then
            (Res.conflict "New slot is not available", db)
          else if activeOnExcept db newSid bid then
            (Res.conflict "New slot is already booked", db)
          else if ns.doctorId ≠ b.doctorId then
            (Res.invalidState "New slot must belong to the same doctor", db)
          else rescheduleCommit db bid b.slotId newSid

/-- completeBooking: load the booking, reject terminal statuses, reject a
booking whose slot exists and is not yet past (a missing slot skips the
guard), then set the status to completed; no slot mutation. -/
def completeBooking (db : DB) (now : Int) (bid : Nat) : Res × DB :=
  match findBooking db bid with
  | none => (Res.notFound "Booking not found", db)
  | some b =>
    if b.bookingStatus = BStatus.completed then
      (Res.invalidState "Booking is already completed", db)
    else if b.bookingStatus = BStatus.cancelled then
      (Res.invalidState "Cannot complete a cancelled booking", db)
    else if b.bookingStatus = BStatus.expired then
      (Res.invalidState "Cannot complete an expired booking", db)
    else
      let futureGuard := match findSlot db b.slotId with
        | some s => !isSlotInPast s now
        | none => false
      if futureGuard then
        (Res.invalidState "Cannot complete a booking for a future slot", db)
      else (Res.ok bid, updBooking db bid (fun bk => { bk with bookingStatus := BStatus.completed }))

/-- Does an active booking entry get selected for expiry: its slot exists and
is past. -/
def expires (db : DB) (now : Int) (e : Nat × Booking) : Bool :=
  e.2.bookingStatus.isActive &&
    (match findSlot db e.2.slotId with
     | some s => isSlotInPast s now
     | none => false)

/-- expirePastBookings: select the active bookings whose populated slot is
past and set them all to expired in one bulk update, returning the count. -/
def expirePastBookings (db : DB) (now : Int) : Nat × DB :=
  ((db.bookings.filter (expires db now)).length,
   { db with bookings := db.bookings.map (fun e =>
       if expires db now e then (e.1, { e.2 with bookingStatus := BStatus.expired }) else e) })

/-- blockSlot (src/controllers/slotController.js lines 97 to 132): load the
slot and set its status to blocked unconditionally; nothing else changes. -/
def blockSlot (db : DB) (sid : Nat) : Res × DB :=
  match findSlot db sid with
  | none => (Res.notFound "Slot not found", db)
  | some _ => (Res.ok sid, setSlotStatus db sid SlotStatus.blocked)

/-- deleteSlot: remove the slot document when it exists. -/
def deleteSlot (db : DB) (sid : Nat) : Res × DB :=
  match findSlot db sid with
  | none => (Res.notFound "Slot not found", db)
  | some _ => (Res.ok sid, { db with slots := db.slots.filter (fun e => e.1 != sid) })

/-- One request against the shared stores. The Raw commit operations model a
request whose pre-checks were evaluated against an earlier state (a race):
only the commit, with its storage-level constraint, runs against the current
state. addSlot models a slot insertion by the generator. -/
inductive Op where
  | create (now : Int) (userId sid : Nat)
  | createCommitRaw (userId sid docId : Nat)
  | cancel (now : Int) (actor : Actor) (bid : Nat) (reason : Option String)
  | reschedule (now : Int) (actor : Actor) (bid newSid : Nat)
  | rescheduleCommitRaw (bid oldSid newSid : Nat)
  | complete (now : Int) (bid : Nat)
  | expire (now : Int)
  | block (sid : Nat)
  | delete (sid : Nat)
  | addSlot (sid : Nat) (s : SlotDoc)

def stepOp (db : DB) : Op → DB
  | .create now u sid => (createBooking db now u sid).2
  | .createCommitRaw u sid docId => (createCommit db u sid docId).2
  | .cancel now a bid r => (cancelBooking db now a bid r).2
  | .reschedule now a bid nsid => (rescheduleBooking db now a bid nsid).2
  | .rescheduleCommitRaw bid o n => (rescheduleCommit db bid o n).2
  | .complete now bid => (completeBooking db now bid).2
  | .expire now => (expirePastBookings db now).2
  | .block sid => (blockSlot db sid).2
  | .delete sid => (deleteSlot db sid).2
  | .addSlot sid s => { db with slots := db.slots ++ [(sid, s)] }

def run (db : DB) (ops : List Op) : DB := ops.foldl stepOp db

/-- An initial state: arbitrary pre-existing slots and doctors, no bookings. -/
def initDB (slots : List (Nat × SlotDoc)) (doctors : List Nat) : DB :=
  { slots := slots, bookings := [], nextBookingId := 0, doctors := doctors }

/-- The number of bookings with status pending or confirmed referencing a
given slot. -/
def activeCount (db : DB) (sid : Nat) : Nat :=
  db.bookings.countP (fun e => e.2.bookingStatus.isActive && e.2.slotId == sid)

/-- Structural well-formedness maintained by the store: booking ids are
distinct and below the next id. -/
def WFdb (db : DB) : Prop :=
  (db.bookings.map (fun e => e.1)).Nodup ∧ ∀ e ∈ db.bookings, e.1 < db.nextBookingId

/-- The central invariant together with well-formedness. -/
def Inv (db : DB) : Prop :=
  WFdb db ∧ ∀ sid, activeCount db sid ≤ 1

/-- N create attempts racing on one slot: each commit runs in turn against
the then-current state (the serialized transactions); pre-checks are not
re-run, matching attempts whose pre-checks all passed against the initial
state. Returns the result observed by each caller and the final state. -/
def raceCreate (db : DB) (sid : Nat) : List (Nat × Nat) → List Res × DB
  | [] => ([], db)
  | ud :: rest =>
    ((createCommit db ud.1 sid ud.2).1 :: (raceCreate (createCommit db ud.1 sid ud.2).2 sid rest).1,
     (raceCreate (createCommit db ud.1 sid ud.2).2 sid rest).2)

/-! ## Concrete fixtures used in the verification below -/

/-- A doctor available 09:00 to 10:00 on weekday 1. -/
def genDoctor : DoctorRec :=
  { id := 7, availability := [{ dayOfWeek := 1, startTime := ⟨9, 0⟩, endTime := ⟨10, 0⟩ }] }

/-- A doctor available 09:00 to 09:45 on weekday 1. -/
def genDoctor45 : DoctorRec :=
  { id := 7, availability := [{ dayOfWeek := 1, startTime := ⟨9, 0⟩, endTime := ⟨9, 45⟩ }] }

/-- An available slot on day 10, 09:00 to 09:30, of doctor 3. -/
def slotFix : SlotDoc :=
  { doctorId := 3, date := DateVal.valid 10, startTime := TimeVal.valid 9 0,
    endTime := TimeVal.valid 9 30, status := SlotStatus.available }

/-- An available slot on day 0, 09:00 to 09:30: past at instant 1000. -/
def pastSlot : SlotDoc :=
  { doctorId := 3, date := DateVal.valid 0, startTime := TimeVal.valid 9 0,
    endTime := TimeVal.valid 9 30, status := SlotStatus.available }

/-- A store with one available slot and its doctor, and no bookings. -/
def dbFix : DB :=
  { slots := [(1, slotFix)], bookings := [], nextBookingId := 0, doctors := [3] }

/-- A store where booking 0 (user 5, confirmed) holds slot 1. -/
def bookedDb : DB :=
  { slots := [(1, { slotFix with status := SlotStatus.booked })],
    bookings := [(0, ⟨5, 1, 3, BStatus.confirmed, none⟩)],
    nextBookingId := 1, doctors := [3] }

/-- A store exercising the past-slot guards: slot 1 (future, booked by
booking 0), slot 2 (past, available), slot 3 (past, booked by booking 1). -/
def guardDb : DB :=
  { slots := [(1, { slotFix with status := SlotStatus.booked }), (2, pastSlot),
              (3, { pastSlot with status := SlotStatus.booked })],
    bookings := [(0, ⟨5, 1, 3, BStatus.confirmed, none⟩),
                 (1, ⟨5, 3, 3, BStatus.confirmed, none⟩)],
    nextBookingId := 2, doctors := [3] }

/-- A store where confirmed booking 0 references slot id 9, which no longer
exists in the slot store. -/
def orphanDb : DB :=
  { slots := [], bookings := [(0, ⟨5, 9, 3, BStatus.confirmed, none⟩)],
    nextBookingId := 1, doctors := [3] }

/-- A store with two booked slots, each held by a confirmed booking, where a
reschedule of booking 1 onto slot 1 runs into the partial unique index. -/
def conflictDb : DB :=
  { slots := [(1, { slotFix with status := SlotStatus.booked }),
              (2, { doctorId := 3, date := DateVal.valid 10, startTime := TimeVal.valid 10 0,
                    endTime := TimeVal.valid 10 30, status := SlotStatus.booked })],
    bookings := [(0, ⟨1, 1, 3, BStatus.confirmed, none⟩),
                 (1, ⟨2, 2, 3, BStatus.confirmed, none⟩)],
    nextBookingId := 2, doctors := [3] }

/-! ## Helper lemmas: slot generator -/

theorem sameKey_iff (a b : GenSlot) :
    sameKey a b = true ↔ a.doctorId = b.doctorId ∧ a.day = b.day ∧ a.startMin = b.startMin := by
  simp [sameKey, and_assoc]

theorem sameKey_refl (a : GenSlot) : sameKey a a = true := by
  simp [sameKey]

theorem sameKey_trans {a b c : GenSlot} (h1 : sameKey a b = true)
    (h2 : sameKey b c = true) : sameKey a c = true := by
  rw [sameKey_iff] at h1 h2 ⊢
  exact ⟨h1.1.trans h2.1, h1.2.1.trans h2.2.1, h1.2.2.trans h2.2.2⟩

theorem hasKey_append_single (store : List GenSlot) (q r : GenSlot) :
    hasKey (store ++ [q]) r = (hasKey store r || sameKey q r) := by
  simp [hasKey, List.any_append]

theorem hasKey_of_sameKey {store : List GenSlot} {q r : GenSlot}
    (hq : hasKey store q = true) (hqr : sameKey q r = true) : hasKey store r = true := by
  simp only [hasKey, List.any_eq_true] at hq ⊢
  obtain ⟨w, hw, hwq⟩ := hq
  exact ⟨w, hw, sameKey_trans hwq hqr⟩

theorem insertAll_hasKey (r : GenSlot) :
    ∀ (recs store : List GenSlot),
      hasKey (insertAll store recs).2 r
        = (hasKey store r || recs.any (fun q => sameKey q r))
  | [], store => by simp [insertAll]
  | q :: rs, store => by
    by_cases h : hasKey store q = true
    · have h0 : upsertSlot store q = (0, store) := by simp [upsertSlot, h]
      simp only [insertAll, h0]
      rw [insertAll_hasKey r rs store]
      by_cases hqr : sameKey q r = true
      · have hr : hasKey store r = true := hasKey_of_sameKey h hqr
        simp [hr, hqr]
      · have hqr2 : sameKey q r = false := by simpa using hqr
        simp [hqr2]
    · have h1 : upsertSlot store q = (1, store ++ [q]) := by simp [upsertSlot, h]
      simp only [insertAll, h1]
      rw [insertAll_hasKey r rs (store ++ [q]), hasKey_append_single]
      simp [List.any_cons, Bool.or_assoc]

theorem insertAll_length :
    ∀ (recs store : List GenSlot),
      (insertAll store recs).1 + store.length = (insertAll store recs).2.length
  | [], store => by simp [insertAll]
  | q :: rs, store => by
    by_cases h : hasKey store q = true
    · have h0 : upsertSlot store q = (0, store) := by simp [upsertSlot, h]
      simp only [insertAll, h0]
      have ih := insertAll_length rs store
      omega
    · have h1 : upsertSlot store q = (1, store ++ [q]) := by simp [upsertSlot, h]
      simp only [insertAll, h1]
      have ih := insertAll_length rs (store ++ [q])
      simp only [List.length_append, List.length_cons, List.length_nil] at ih ⊢
      omega

theorem insertAll_nodup :
    ∀ (recs store : List GenSlot), KeysNodup store → KeysNodup (insertAll store recs).2
  | [], _store => fun h => h
  | q :: rs, store => by
    intro hnd
    by_cases h : hasKey store q = true
    · have h0 : upsertSlot store q = (0, store) := by simp [upsertSlot, h]
      simp only [insertAll, h0]
      exact insertAll_nodup rs store hnd
    · have h1 : upsertSlot store q = (1, store ++ [q]) := by simp [upsertSlot, h]
      simp only [insertAll, h1]
      apply insertAll_nodup rs
      rw [KeysNodup, List.pairwise_append]
      refine ⟨hnd, List.pairwise_singleton _ _, ?_⟩
      intro a ha b hb
      simp only [List.mem_singleton] at hb
      subst hb
      simp only [hasKey, List.any_eq_true, not_exists, not_and] at h
      have := h a ha
      simp only [Bool.not_eq_true] at this
      exact this

theorem insertAll_noop :
    ∀ (recs store : List GenSlot), (∀ r ∈ recs, hasKey store r = true) →
      insertAll store recs = (0, store)
  | [], _store => fun _ => rfl
  | q :: rs, store => by
    intro hall
    have hq : hasKey store q = true := hall q (by simp)
    have h0 : upsertSlot store q = (0, store) := by simp [upsertSlot, hq]
    have ih := insertAll_noop rs store (fun r hr => hall r (by simp [hr]))
    simp [insertAll, h0, ih]

theorem mem_windowSlotsAux {dur : Nat} (hd : 0 < dur) (e : Nat) (p : Nat × Nat) :
    ∀ (fuel t : Nat), e + 1 ≤ fuel + t →
      (p ∈ windowSlotsAux fuel dur e t ↔
        ∃ k, p = (t + k * dur, t + (k + 1) * dur) ∧ t + (k + 1) * dur ≤ e)
  | 0, t => by
    intro ht
    simp only [windowSlotsAux, List.not_mem_nil, false_iff, not_exists, not_and]
    rintro k rfl
    have hmul : dur ≤ (k + 1) * dur := Nat.le_mul_of_pos_left dur (Nat.succ_pos k)
    omega
  | fuel + 1, t => by
    intro ht
    simp only [windowSlotsAux]
    by_cases h : t + dur ≤ e
    · rw [if_pos h]
      simp only [List.mem_cons]
      rw [mem_windowSlotsAux hd e p fuel (t + dur) (by omega)]
      constructor
      · rintro (rfl | ⟨k, rfl, hk⟩)
        · exact ⟨0, by simp, by simpa using h⟩
        · refine ⟨k + 1, ?_, ?_⟩
          · have e1 : t + dur + k * dur = t + (k + 1) * dur := by ring
            have e2 : t + dur + (k + 1) * dur = t + (k + 1 + 1) * dur := by ring
            rw [e1, e2]
          · have e2 : t + dur + (k + 1) * dur = t + (k + 1 + 1) * dur := by ring
            omega
      · rintro ⟨k, rfl, hk⟩
        cases k with
        | zero => left; simp
        | succ k =>
          right
          refine ⟨k, ?_, ?_⟩
          · have e1 : t + dur + k * dur = t + (k + 1) * dur := by ring
            have e2 : t + dur + (k + 1) * dur = t + (k + 1 + 1) * dur := by ring
            rw [e1, e2]
          · have e2 : t + dur + (k + 1) * dur = t + (k + 1 + 1) * dur := by ring
            omega
    · rw [if_neg h]
      simp only [List.not_mem_nil, false_iff, not_exists, not_and]
      rintro k rfl
      have hmul : dur ≤ (k + 1) * dur := Nat.le_mul_of_pos_left dur (Nat.succ_pos k)
      omega

theorem mem_windowSlots {dur : Nat} (hd : 0 < dur) (e t : Nat) (p : Nat × Nat) :
    p ∈ windowSlots dur e t ↔
      ∃ k, p = (t + k * dur, t + (k + 1) * dur) ∧ t + (k + 1) * dur ≤ e :=
  mem_windowSlotsAux hd e p (e + 1) t (by omega)

/-! ## Helper lemmas: booking stores -/

theorem find?_key_map {α : Type} (g : Nat × α → Nat × α) (hg : ∀ e, (g e).1 = e.1) (k : Nat) :
    ∀ l : List (Nat × α),
      (l.map g).find? (fun e => e.1 == k) = (l.find? (fun e => e.1 == k)).map g
  | [] => rfl
  | a :: t => by
    by_cases h : a.1 = k
    · have h1 : ((fun e : Nat × α => e.1 == k) (g a)) = true := by simp [hg a, h]
      have h2 : ((fun e : Nat × α => e.1 == k) a) = true := by simp [h]
      rw [List.map_cons,
        List.find?_cons_of_pos (p := fun e : Nat × α => e.1 == k) _ h1,
        List.find?_cons_of_pos (p := fun e : Nat × α => e.1 == k) _ h2,
        Option.map_some']
    · have h1 : ¬ ((fun e : Nat × α => e.1 == k) (g a)) = true := by simp [hg a, h]
      have h2 : ¬ ((fun e : Nat × α => e.1 == k) a) = true := by simp [h]
      rw [List.map_cons,
        List.find?_cons_of_neg (p := fun e : Nat × α => e.1 == k) _ h1,
        List.find?_cons_of_neg (p := fun e : Nat × α => e.1 == k) _ h2]
      exact find?_key_map g hg k t

theorem setSlot_keeps_key (sid : Nat) (st : SlotStatus) (e : Nat × SlotDoc) :
    ((if e.1 = sid then (e.1, { e.2 with status := st }) else e) : Nat × SlotDoc).1 = e.1 := by
  by_cases h : e.1 = sid <;> simp [h]

theorem updB_keeps_key (bid : Nat) (f : Booking → Booking) (e : Nat × Booking) :
    ((if e.1 = bid then (e.1, f e.2) else e) : Nat × Booking).1 = e.1 := by
  by_cases h : e.1 = bid <;> simp [h]

theorem findSlot_setSlotStatus_self (db : DB) (sid : Nat) (st : SlotStatus) :
    findSlot (setSlotStatus db sid st) sid
      = (findSlot db sid).map (fun s => { s with status := st }) := by
  simp only [findSlot, setSlotStatus]
  rw [find?_key_map _ (setSlot_keeps_key sid st) sid]
  cases hf : db.slots.find? (fun e => e.1 == sid) with
  | none => rfl
  | some e =>
    have hk := List.find?_some hf
    simp only [beq_iff_eq] at hk
    simp [hk]

theorem findSlot_setSlotStatus_other (db : DB) (sid k : Nat) (st : SlotStatus)
    (hk : k ≠ sid) : findSlot (setSlotStatus db sid st) k = findSlot db k := by
  simp only [findSlot, setSlotStatus]
  rw [find?_key_map _ (setSlot_keeps_key sid st) k]
  cases hf : db.slots.find? (fun e => e.1 == k) with
  | none => rfl
  | some e =>
    have he := List.find?_some hf
    simp only [beq_iff_eq] at he
    simp [he, hk]

theorem findBooking_updBooking_self (db : DB) (bid : Nat) (f : Booking → Booking) :
    findBooking (updBooking db bid f) bid = (findBooking db bid).map f := by
  simp only [findBooking, updBooking]
  rw [find?_key_map _ (updB_keeps_key bid f) bid]
  cases hf : db.bookings.find? (fun e => e.1 == bid) with
  | none => rfl
  | some e =>
    have hk := List.find?_some hf
    simp only [beq_iff_eq] at hk
    simp [hk]

theorem findBooking_setSlotStatus (db : DB) (sid : Nat) (st : SlotStatus) (bid : Nat) :
    findBooking (setSlotStatus db sid st) bid = findBooking db bid := rfl

theorem findSlot_updBooking (db : DB) (bid : Nat) (f : Booking → Booking) (sid : Nat) :
    findSlot (updBooking db bid f) sid = findSlot db sid := rfl

theorem keys_updBooking (db : DB) (bid : Nat) (f : Booking → Booking) :
    (updBooking db bid f).bookings.map (fun e => e.1)
      = db.bookings.map (fun e => e.1) := by
  simp only [updBooking, List.map_map]
  exact List.map_congr_left (fun e _ => updB_keeps_key bid f e)

theorem activeOn_false_count {db : DB} {sid : Nat} (h : activeOn db sid = false) :
    activeCount db sid = 0 := by
  rw [activeCount, List.countP_eq_zero]
  rw [activeOn, List.any_eq_false] at h
  exact h

theorem countP_keyeq_le_one {α : Type} (k : Nat) :
    ∀ l : List (Nat × α), (l.map (fun e => e.1)).Nodup →
      l.countP (fun e => e.1 == k) ≤ 1
  | [] => fun _ => by simp
  | a :: t => by
    intro hnd
    simp only [List.map_cons, List.nodup_cons] at hnd
    rw [List.countP_cons]
    by_cases h : a.1 = k
    · have ht : t.countP (fun e : Nat × α => e.1 == k) = 0 := by
        rw [List.countP_eq_zero]
        intro e he hek
        simp only [beq_iff_eq] at hek
        exact hnd.1 (List.mem_map.mpr ⟨e, he, by rw [hek, h]⟩)
      simp [ht, h]
    · have ih := countP_keyeq_le_one k t hnd.2
      have hb : ((fun e : Nat × α => e.1 == k) a) = false := by simp [h]
      simp [hb]
      omega

theorem two_le_countP {α : Type} {p : α → Bool} {x y : α} :
    ∀ {l : List α}, x ∈ l → y ∈ l → x ≠ y → p x = true → p y = true → 2 ≤ l.countP p := by
  intro l
  induction l with
  | nil => intro hx; exact absurd hx (List.not_mem_nil x)
  | cons a t ih =>
    intro hx hy hxy px py
    rw [List.countP_cons]
    rcases List.mem_cons.mp hx with rfl | hx2
    · have hyt : y ∈ t := by
        rcases List.mem_cons.mp hy with h | h
        · exact absurd h.symm hxy
        · exact h
      have hpos : 0 < t.countP p := List.countP_pos_iff.mpr ⟨y, hyt, py⟩
      simp only [px, if_true]
      omega
    · rcases List.mem_cons.mp hy with rfl | hy2
      · have hpos : 0 < t.countP p := List.countP_pos_iff.mpr ⟨x, hx2, px⟩
        simp only [py, if_true]
        omega
      · have := ih hx2 hy2 hxy px py
        omega

theorem setSlotStatus_bookings (db : DB) (sid : Nat) (st : SlotStatus) :
    (setSlotStatus db sid st).bookings = db.bookings := rfl

theorem inv_congr {db2 db : DB} (hb : db2.bookings = db.bookings)
    (hn : db2.nextBookingId = db.nextBookingId) (h : Inv db) : Inv db2 := by
  obtain ⟨⟨h1, h2⟩, h3⟩ := h
  refine ⟨⟨?_, ?_⟩, ?_⟩
  · rw [hb]; exact h1
  · rw [hb, hn]; exact h2
  · intro sid
    have := h3 sid
    simp only [activeCount] at this ⊢
    rw [hb]
    exact this

theorem inv_updBooking_inactive (db : DB) (bid : Nat) (f : Booking → Booking)
    (hf : ∀ b, ((f b).bookingStatus).isActive = false) (h : Inv db) :
    Inv (updBooking db bid f) := by
  obtain ⟨⟨h1, h2⟩, h3⟩ := h
  refine ⟨⟨?_, ?_⟩, ?_⟩
  · rw [keys_updBooking]; exact h1
  · intro e he
    simp only [updBooking, List.mem_map] at he
    obtain ⟨e0, he0, rfl⟩ := he
    rw [updB_keeps_key]
    exact h2 e0 he0
  · intro sid
    have hle : activeCount (updBooking db bid f) sid ≤ activeCount db sid := by
      simp only [activeCount, updBooking]
      rw [List.countP_map]
      apply List.countP_mono_left
      intro e _ hp
      simp only [Function.comp] at hp
      by_cases hk : e.1 = bid
      · rw [if_pos hk] at hp
        simp [hf e.2] at hp
      · rw [if_neg hk] at hp
        exact hp
    exact hle.trans (h3 sid)

theorem inv_cancelCommit (db : DB) (bid slotRef : Nat) (reason : Option String)
    (h : Inv db) : Inv (cancelCommit db bid slotRef reason).2 := by
  have h1 : Inv (updBooking db bid (fun bk =>
      { bk with bookingStatus := BStatus.cancelled,
                cancellationReason := cancelReasonUpdate reason bk.cancellationReason })) :=
    inv_updBooking_inactive db bid _ (fun _ => rfl) h
  simp only [cancelCommit]
  split
  · exact inv_congr rfl rfl h1
  · exact h1

theorem inv_createCommit (db : DB) (u sid docId : Nat) (h : Inv db) :
    Inv (createCommit db u sid docId).2 := by
  by_cases hc : activeOn db sid = true
  · simp only [createCommit, hc, if_true]
    exact h
  · have hc2 : activeOn db sid = false := by simpa using hc
    obtain ⟨⟨h1, h2⟩, h3⟩ := h
    simp only [createCommit, hc2, Bool.false_eq_true, if_false]
    refine ⟨⟨?_, ?_⟩, ?_⟩
    · rw [List.map_cons]
      refine List.nodup_cons.mpr ⟨?_, ?_⟩
      · intro hmem
        obtain ⟨e, he, hke⟩ := List.mem_map.mp hmem
        have := h2 e he
        rw [setSlotStatus_bookings] at he
        omega
      · rw [setSlotStatus_bookings]
        exact h1
    · intro e he
      rcases List.mem_cons.mp he with rfl | he2
      · simp
      · rw [setSlotStatus_bookings] at he2
        have := h2 e he2
        show e.1 < db.nextBookingId + 1
        omega
    · intro k
      have h3k := h3 k
      simp only [activeCount, setSlotStatus_bookings] at h3k ⊢
      rw [List.countP_cons]
      by_cases hk : k = sid
      · subst hk
        have h0 : db.bookings.countP
            (fun e => e.2.bookingStatus.isActive && e.2.slotId == k) = 0 := by
          have := activeOn_false_count hc2
          simpa [activeCount] using this
        have hb2 : ((fun e : Nat × Booking =>
            e.2.bookingStatus.isActive && e.2.slotId == k)
              (db.nextBookingId,
               { userId := u, slotId := k, doctorId := docId,
                 bookingStatus := BStatus.confirmed, cancellationReason := none })) = true := by
          simp [BStatus.isActive]
        simp only [hb2, if_true, h0]
        omega
      · have hb : ((fun e : Nat × Booking =>
            e.2.bookingStatus.isActive && e.2.slotId == k)
              (db.nextBookingId,
               { userId := u, slotId := sid, doctorId := docId,
                 bookingStatus := BStatus.confirmed, cancellationReason := none })) = false := by
          simp only [BStatus.isActive, Bool.true_and]
          exact beq_eq_false_iff_ne.mpr (fun hh => hk hh.symm)
        simp only [hb, Bool.false_eq_true, if_false]
        omega

theorem mem_key_unique {α : Type} :
    ∀ {l : List (Nat × α)}, (l.map (fun e => e.1)).Nodup →
      ∀ {e1 e2 : Nat × α}, e1 ∈ l → e2 ∈ l → e1.1 = e2.1 → e1 = e2 := by
  intro l
  induction l with
  | nil => intro _ e1 e2 h1; exact absurd h1 (List.not_mem_nil e1)
  | cons a t ih =>
    intro hnd e1 e2 h1 h2 hk
    simp only [List.map_cons, List.nodup_cons] at hnd
    rcases List.mem_cons.mp h1 with rfl | h1t
    · rcases List.mem_cons.mp h2 with rfl | h2t
      · rfl
      · exact absurd (List.mem_map.mpr ⟨e2, h2t, hk.symm⟩) hnd.1
    · rcases List.mem_cons.mp h2 with rfl | h2t
      · exact absurd (List.mem_map.mpr ⟨e1, h1t, hk⟩) hnd.1
      · exact ih hnd.2 h1t h2t hk

theorem findBooking_mem {db : DB} {bid : Nat} {bk : Booking}
    (h : findBooking db bid = some bk) : (bid, bk) ∈ db.bookings := by
  simp only [findBooking, Option.map_eq_some'] at h
  obtain ⟨e, he, h2⟩ := h
  have hk := List.find?_some he
  simp only [beq_iff_eq] at hk
  have hmem := List.mem_of_find?_eq_some he
  have : e = (bid, bk) := by
    cases e
    simp only at hk h2
    rw [hk, h2]
  rw [← this]
  exact hmem

theorem findBooking_none_key {db : DB} {bid : Nat}
    (h : findBooking db bid = none) : ∀ e ∈ db.bookings, e.1 ≠ bid := by
  simp only [findBooking, Option.map_eq_none', List.find?_eq_none] at h
  intro e he
  have := h e he
  simpa using this

theorem activeOnExcept_false {db : DB} {sid bid : Nat} (h : activeOnExcept db sid bid = false) :
    ∀ e ∈ db.bookings, e.1 ≠ bid → e.2.bookingStatus.isActive = true → e.2.slotId ≠ sid := by
  rw [activeOnExcept, List.any_eq_false] at h
  intro e he hne hact hslot
  have := h e he
  simp [hne, hact, hslot] at this

theorem inv_slotmove (db : DB) (bid newSid : Nat) (h : Inv db)
    (hguard : (match findBooking db bid with
        | some bk => bk.bookingStatus.isActive && activeOnExcept db newSid bid
        | none => false) = false)
    (db2 : DB)
    (hb : db2.bookings = db.bookings.map
      (fun e => if e.1 = bid then (e.1, { e.2 with slotId := newSid }) else e))
    (hn : db2.nextBookingId = db.nextBookingId) : Inv db2 := by
  obtain ⟨⟨h1, h2⟩, h3⟩ := h
  have hkeys : db2.bookings.map (fun e => e.1) = db.bookings.map (fun e => e.1) := by
    rw [hb, List.map_map]
    apply List.map_congr_left
    intro e _
    by_cases hc : e.1 = bid <;> simp [Function.comp, hc]
  refine ⟨⟨?_, ?_⟩, ?_⟩
  · rw [hkeys]; exact h1
  · intro e he
    rw [hb] at he
    obtain ⟨e0, he0, rfl⟩ := List.mem_map.mp he
    rw [hn]
    have hlt := h2 e0 he0
    by_cases hc : e0.1 = bid
    · rw [if_pos hc]; exact hlt
    · rw [if_neg hc]; exact hlt
  · intro k
    simp only [activeCount, hb]
    rw [List.countP_map]
    cases hfb : findBooking db bid with
    | none =>
      have hnk := findBooking_none_key hfb
      have hsame : db.bookings.countP
          ((fun e : Nat × Booking => e.2.bookingStatus.isActive && e.2.slotId == k) ∘
            (fun e => if e.1 = bid then (e.1, { e.2 with slotId := newSid }) else e))
          = db.bookings.countP
            (fun e => e.2.bookingStatus.isActive && e.2.slotId == k) := by
        apply List.countP_congr
        intro e he
        have := hnk e he
        simp [Function.comp, this]
      rw [hsame]
      exact h3 k
    | some bk =>
      rw [hfb] at hguard
      have hmem := findBooking_mem hfb
      rcases Bool.and_eq_false_iff.mp hguard with hact | hex
      · refine (List.countP_mono_left ?_).trans (h3 k)
        intro e he hp
        simp only [Function.comp] at hp
        by_cases hkey : e.1 = bid
        · have heq : e = (bid, bk) :=
            mem_key_unique h1 he hmem (by simpa using hkey)
          rw [if_pos hkey] at hp
          rw [heq] at hp
          simp [hact] at hp
        · rw [if_neg hkey] at hp
          exact hp
      · by_cases hk : k = newSid
        · subst hk
          refine (List.countP_mono_left ?_).trans (countP_keyeq_le_one bid db.bookings h1)
          intro e he hp
          simp only [Function.comp] at hp
          by_cases hkey : e.1 = bid
          · simp [hkey]
          · exfalso
            rw [if_neg hkey] at hp
            have hpa : e.2.bookingStatus.isActive = true ∧ e.2.slotId = k := by
              simpa using hp
            exact activeOnExcept_false hex e he hkey hpa.1 hpa.2
        · refine (List.countP_mono_left ?_).trans (h3 k)
          intro e he hp
          simp only [Function.comp] at hp
          by_cases hkey : e.1 = bid
          · rw [if_pos hkey] at hp
            have hps : e.2.bookingStatus.isActive = true ∧ newSid = k := by
              simpa using hp
            exact absurd hps.2.symm hk
          · rw [if_neg hkey] at hp
            exact hp

theorem inv_rescheduleCommit (db : DB) (bid oldSid newSid : Nat) (h : Inv db) :
    Inv (rescheduleCommit db bid oldSid newSid).2 := by
  simp only [rescheduleCommit]
  by_cases hg : (match findBooking db bid with
      | some bk => bk.bookingStatus.isActive && activeOnExcept db newSid bid
      | none => false) = true
  · rw [if_pos hg]
    exact h
  · have hg2 : (match findBooking db bid with
        | some bk => bk.bookingStatus.isActive && activeOnExcept db newSid bid
        | none => false) = false := by simpa using hg
    rw [if_neg hg]
    refine inv_slotmove db bid newSid h hg2 _ ?_ ?_
    · cases hos : findSlot db oldSid <;> rfl
    · cases hos : findSlot db oldSid <;> rfl

theorem inv_completeBooking (db : DB) (now : Int) (bid : Nat) (h : Inv db) :
    Inv (completeBooking db now bid).2 := by
  simp only [completeBooking]
  split
  · exact h
  · split
    · exact h
    · split
      · exact h
      · split
        · exact h
        · split
          · exact h
          · exact inv_updBooking_inactive db bid _ (fun _ => rfl) h

theorem inv_expire (db : DB) (now : Int) (h : Inv db) : Inv (expirePastBookings db now).2 := by
  obtain ⟨⟨h1, h2⟩, h3⟩ := h
  refine ⟨⟨?_, ?_⟩, ?_⟩
  · simp only [expirePastBookings, List.map_map]
    have heq : db.bookings.map ((fun e : Nat × Booking => e.1) ∘ (fun e =>
        if expires db now e then (e.1, { e.2 with bookingStatus := BStatus.expired }) else e))
        = db.bookings.map (fun e => e.1) := by
      apply List.map_congr_left
      intro e _
      by_cases hc : expires db now e = true <;> simp [Function.comp, hc]
    rw [heq]
    exact h1
  · intro e he
    simp only [expirePastBookings, List.mem_map] at he
    obtain ⟨e0, he0, rfl⟩ := he
    have hlt := h2 e0 he0
    by_cases hc : expires db now e0 = true
    · rw [if_pos hc]; exact hlt
    · rw [if_neg hc]; exact hlt
  · intro k
    have h3k := h3 k
    simp only [activeCount, expirePastBookings] at h3k ⊢
    rw [List.countP_map]
    refine (List.countP_mono_left ?_).trans h3k
    intro e _ hp
    simp only [Function.comp] at hp
    by_cases hc : expires db now e = true
    · rw [if_pos hc] at hp
      simp [BStatus.isActive] at hp
    · rw [if_neg hc] at hp
      exact hp

theorem inv_createBooking (db : DB) (now : Int) (u sid : Nat) (h : Inv db) :
    Inv (createBooking db now u sid).2 := by
  simp only [createBooking]
  split
  · exact h
  · split
    · exact h
    · split
      · exact h
      · split
        · exact h
        · split
          · exact h
          · exact inv_createCommit db u sid _ h

theorem inv_cancelBooking (db : DB) (now : Int) (a : Actor) (bid : Nat)
    (reason : Option String) (h : Inv db) : Inv (cancelBooking db now a bid reason).2 := by
  simp only [cancelBooking]
  split
  · exact h
  · split
    · exact h
    · split
      · exact h
      · split
        · exact h
        · split
          · exact h
          · split
            · split
              · exact h
              · exact inv_cancelCommit db bid _ reason h
            · exact inv_cancelCommit db bid _ reason h

theorem inv_rescheduleBooking (db : DB) (now : Int) (a : Actor) (bid newSid : Nat)
    (h : Inv db) : Inv (rescheduleBooking db now a bid newSid).2 := by
  simp only [rescheduleBooking]
  split
  · exact h
  · split
    · exact h
    · split
      · exact h
      · split
        · exact h
        · split
          · exact h
          · split
            · exact h
            · split
              · exact h
              · split
                · exact h
                · split
                  · exact h
                  · split
                    · exact h
                    · split
                      · exact h
                      · exact inv_rescheduleCommit db bid _ newSid h

theorem inv_stepOp (db : DB) (op : Op) (h : Inv db) : Inv (stepOp db op) := by
  cases op with
  | create now u sid => exact inv_createBooking db now u sid h
  | createCommitRaw u sid docId => exact inv_createCommit db u sid docId h
  | cancel now a bid r => exact inv_cancelBooking db now a bid r h
  | reschedule now a bid nsid => exact inv_rescheduleBooking db now a bid nsid h
  | rescheduleCommitRaw bid o n => exact inv_rescheduleCommit db bid o n h
  | complete now bid => exact inv_completeBooking db now bid h
  | expire now => exact inv_expire db now h
  | block sid =>
    simp only [stepOp, blockSlot]
    split
    · exact h
    · exact inv_congr rfl rfl h
  | delete sid =>
    simp only [stepOp, deleteSlot]
    split
    · exact h
    · exact inv_congr rfl rfl h
  | addSlot sid s => exact inv_congr rfl rfl h

theorem inv_run : ∀ (ops : List Op) (db : DB), Inv db → Inv (run db ops)
  | [], _db => fun h => h
  | op :: rest, db => fun h => inv_run rest (stepOp db op) (inv_stepOp db op h)

theorem inv_initDB (slots : List (Nat × SlotDoc)) (doctors : List Nat) :
    Inv (initDB slots doctors) := by
  refine ⟨⟨?_, ?_⟩, ?_⟩
  · simp [initDB]
  · intro e he
    simp [initDB] at he
  · intro sid
    simp [initDB, activeCount]

theorem createCommit_conflict {db : DB} (u sid docId : Nat) (h : activeOn db sid = true) :
    createCommit db u sid docId = (Res.conflict "Slot is already booked", db) := by
  simp [createCommit, h]

theorem createCommit_ok {db : DB} (u sid docId : Nat) (h : activeOn db sid = false) :
    (createCommit db u sid docId).1 = Res.ok db.nextBookingId ∧
    activeOn (createCommit db u sid docId).2 sid = true := by
  constructor
  · simp [createCommit, h]
  · simp only [createCommit, h, Bool.false_eq_true, if_false]
    simp [activeOn, setSlotStatus_bookings, BStatus.isActive]

theorem raceCreate_conflictAll (sid : Nat) :
    ∀ (users : List (Nat × Nat)) (db : DB), activeOn db sid = true →
      (raceCreate db sid users).1
          = users.map (fun _ => Res.conflict "Slot is already booked")
        ∧ (raceCreate db sid users).2 = db
  | [], _db => fun _ => ⟨rfl, rfl⟩
  | ud :: rest, db => by
    intro h
    have hc := createCommit_conflict ud.1 sid ud.2 h
    have ih := raceCreate_conflictAll sid rest db h
    simp only [raceCreate, hc]
    simp [ih.1, ih.2]

theorem countP_isOk_conflictMap (users : List (Nat × Nat)) :
    (users.map (fun _ => Res.conflict "Slot is already booked")).countP Res.isOk = 0 := by
  rw [List.countP_map, List.countP_eq_zero]
  intro a _
  simp [Function.comp, Res.isOk]

theorem raceCreate_spec (sid : Nat) :
    ∀ (users : List (Nat × Nat)) (db : DB),
      ((raceCreate db sid users).1.countP Res.isOk ≤ 1)
      ∧ ∀ r ∈ (raceCreate db sid users).1,
          r.isOk = true ∨ r = Res.conflict "Slot is already booked"
  | [], db => by simp [raceCreate]
  | ud :: rest, db => by
    by_cases h : activeOn db sid = true
    · have hall := (raceCreate_conflictAll sid (ud :: rest) db h).1
      rw [hall]
      constructor
      · rw [countP_isOk_conflictMap]
        omega
      · intro r hr
        obtain ⟨_, _, rfl⟩ := List.mem_map.mp hr
        right
        rfl
    · have h2 : activeOn db sid = false := by simpa using h
      have hok := createCommit_ok ud.1 sid ud.2 h2
      have hall := raceCreate_conflictAll sid rest (createCommit db ud.1 sid ud.2).2 hok.2
      simp only [raceCreate]
      rw [hall.1]
      constructor
      · rw [List.countP_cons, countP_isOk_conflictMap]
        by_cases hio : (createCommit db ud.1 sid ud.2).1.isOk = true <;> simp [hio]
      · intro r hr
        rcases List.mem_cons.mp hr with rfl | hr2
        · left
          rw [hok.1]
          rfl
        · obtain ⟨_, _, rfl⟩ := List.mem_map.mp hr2
          right
          rfl

/-! ## Claims -/

/-- C7: isSlotInPast combines the slot date with its end time (falling back to
the start time exactly when the end time is absent) into a server-local
instant and returns true exactly when that instant is strictly before the
current instant; whenever the date is missing or invalid, or the effective
time is missing or unparseable, it returns false (fails open to not past). -/
theorem c7_isSlotInPast :
    (∀ (s : SlotDoc) (now : Int),
      isSlotInPast s now = true ↔
        ∃ t, buildDateTime s.date (slotTimeStr s) = some t ∧ t < now)
    ∧ (∀ (s : SlotDoc) (now : Int),
        buildDateTime s.date (slotTimeStr s) = none → isSlotInPast s now = false)
    ∧ (∀ s : SlotDoc, s.endTime = TimeVal.absent → slotTimeStr s = s.startTime)
    ∧ (∀ s : SlotDoc, s.endTime ≠ TimeVal.absent → slotTimeStr s = s.endTime) := by
  refine ⟨?_, ?_, ?_, ?_⟩
  · intro s now
    cases hd : s.date with
    | absent => simp [isSlotInPast, hd, buildDateTime]
    | invalid => simp [isSlotInPast, hd, buildDateTime]
    | valid day =>
      simp only [isSlotInPast, hd]
      cases hb : buildDateTime (DateVal.valid day) (slotTimeStr s) with
      | none => simp [hb]
      | some t => simp [hb]
  · intro s now hnone
    cases hd : s.date with
    | absent => simp [isSlotInPast, hd]
    | invalid => simp [isSlotInPast, hd, buildDateTime]
    | valid day =>
      rw [hd] at hnone
      simp [isSlotInPast, hd, hnone]
  · intro s he
    simp [slotTimeStr, he]
  · intro s he
    cases hv : s.endTime with
    | absent => exact absurd hv he
    | invalid => simp [slotTimeStr, hv]
    | valid h m => simp [slotTimeStr, hv]

/-- C7 witness: a slot with a valid date and parseable start time but an
unparseable end time is not considered past even far in the future. -/
theorem c7_isSlotInPast_witness :
    isSlotInPast
      ({ doctorId := 0, date := DateVal.valid 3, startTime := TimeVal.valid 9 0,
         endTime := TimeVal.invalid, status := SlotStatus.available }) 99999 = false :=
  c7_isSlotInPast.2.1 _ 99999 rfl

/-- C6 counterexample: for the negative duration -15 the value actually used
is -15, not the default 30: the selection expression keeps it, and generation
diverges from the 30-minute behaviour (the JS walking loop does not
terminate, reported by the embedding as an error). -/
theorem c6_counterexample :
    effectiveDuration (some (JsNum.num (-15))) = -15
    ∧ effectiveDuration (some (JsNum.num (-15))) ≠ 30
    ∧ generateSlotsForDoctor [] genDoctor (DateVal.valid 1) (DateVal.valid 1)
        (some (JsNum.num (-15))) "UTC"
        = Except.error "slot generation loop does not terminate for a nonpositive duration"
    ∧ generateSlotsForDoctor [] genDoctor (DateVal.valid 1) (DateVal.valid 1) none "UTC"
        = Except.ok (2, [⟨7, 1, 540, 570, SlotStatus.available, "UTC"⟩,
                         ⟨7, 1, 570, 600, SlotStatus.available, "UTC"⟩]) := by
  refine ⟨rfl, by decide, rfl, rfl⟩

/-- C6 amended: the duration used by generateSlotsForDoctor defaults to 30
when the argument is absent, NaN, or zero (the falsy coercion results); a
nonzero value, including a negative one, is used as-is. -/
theorem c6_amended_duration :
    effectiveDuration none = 30
    ∧ effectiveDuration (some JsNum.nan) = 30
    ∧ effectiveDuration (some (JsNum.num 0)) = 30
    ∧ ∀ n : Int, n ≠ 0 → effectiveDuration (some (JsNum.num n)) = n := by
  refine ⟨rfl, rfl, rfl, ?_⟩
  intro n hn
  simp [effectiveDuration, hn]

/-- C6 amended witness: a nonzero duration is used as-is. -/
theorem c6_amended_duration_witness :
    effectiveDuration (some (JsNum.num 45)) = 45 :=
  c6_amended_duration.2.2.2 45 (by decide)

/-- C9: blockSlot sets the status of an existing slot to blocked regardless
of its current status and changes nothing else: other slots, the bookings,
the doctors and the next booking id are untouched, so any active booking
referencing the slot still references it once blocked. -/
theorem c9_blockSlot (db : DB) (sid : Nat) (s : SlotDoc) (h : findSlot db sid = some s) :
    (blockSlot db sid).1 = Res.ok sid
    ∧ findSlot (blockSlot db sid).2 sid = some { s with status := SlotStatus.blocked }
    ∧ (∀ k, k ≠ sid → findSlot (blockSlot db sid).2 k = findSlot db k)
    ∧ (blockSlot db sid).2.bookings = db.bookings
    ∧ (blockSlot db sid).2.doctors = db.doctors
    ∧ (blockSlot db sid).2.nextBookingId = db.nextBookingId
    ∧ (∀ k, activeOn (blockSlot db sid).2 k = activeOn db k) := by
  have hb : blockSlot db sid = (Res.ok sid, setSlotStatus db sid SlotStatus.blocked) := by
    simp [blockSlot, h]
  rw [hb]
  refine ⟨rfl, ?_, ?_, rfl, rfl, rfl, fun _ => rfl⟩
  · rw [findSlot_setSlotStatus_self, h]
    rfl
  · intro k hk
    exact findSlot_setSlotStatus_other db sid k _ hk

/-- C9 witness: blocking the booked slot 1 of guardDb succeeds, marks it
blocked, and its confirmed booking still references it. -/
theorem c9_blockSlot_witness :
    (blockSlot guardDb 1).1 = Res.ok 1
    ∧ findSlot (blockSlot guardDb 1).2 1
        = some { slotFix with status := SlotStatus.blocked }
    ∧ activeOn (blockSlot guardDb 1).2 1 = true := by
  have h := c9_blockSlot guardDb 1 { slotFix with status := SlotStatus.booked } rfl
  refine ⟨h.1, ?_, ?_⟩
  · exact h.2.1
  · rw [h.2.2.2.2.2.2 1]
    decide

/-- C10: when the slot referenced by a pending or confirmed booking no longer
exists, cancel by the owner or an administrator still succeeds for any
current instant: the booking becomes cancelled (with the reason stored when
given) and the slot store is left untouched. -/
theorem c10_cancel_missing_slot (db : DB) (now : Int) (actor : Actor) (bid : Nat)
    (reason : Option String) (b : Booking)
    (hb : findBooking db bid = some b)
    (hauth : actor.isAdmin = true ∨ b.userId = actor.id)
    (hact : b.bookingStatus = BStatus.pending ∨ b.bookingStatus = BStatus.confirmed)
    (hmiss : findSlot db b.slotId = none) :
    (cancelBooking db now actor bid reason).1 = Res.ok bid
    ∧ findBooking (cancelBooking db now actor bid reason).2 bid
        = some { b with bookingStatus := BStatus.cancelled,
                        cancellationReason := cancelReasonUpdate reason b.cancellationReason }
    ∧ (cancelBooking db now actor bid reason).2.slots = db.slots := by
  have hnc : ¬ (¬ actor.isAdmin = true ∧ b.userId ≠ actor.id) := by
    rcases hauth with h | h
    · intro hc; exact hc.1 h
    · intro hc; exact hc.2 h
  have hs1 : ¬ b.bookingStatus = BStatus.cancelled := by rcases hact with h | h <;> simp [h]
  have hs2 : ¬ b.bookingStatus = BStatus.completed := by rcases hact with h | h <;> simp [h]
  have hs3 : ¬ b.bookingStatus = BStatus.expired := by rcases hact with h | h <;> simp [h]
  simp only [cancelBooking, hb]
  rw [if_neg hnc, if_neg hs1, if_neg hs2, if_neg hs3]
  simp only [hmiss]
  refine ⟨rfl, ?_, ?_⟩
  · simp only [cancelCommit, findSlot_updBooking, hmiss]
    rw [findBooking_updBooking_self, hb]
    rfl
  · simp only [cancelCommit, findSlot_updBooking, hmiss]
    rfl

/-- C10 witness: cancelling the orphaned booking 0 of orphanDb succeeds and
leaves the (empty) slot store untouched. -/
theorem c10_cancel_missing_slot_witness :
    (cancelBooking orphanDb 5000 ⟨5, false⟩ 0 (some "moved")).1 = Res.ok 0
    ∧ (cancelBooking orphanDb 5000 ⟨5, false⟩ 0 (some "moved")).2.slots = orphanDb.slots := by
  have h := c10_cancel_missing_slot orphanDb 5000 ⟨5, false⟩ 0 (some "moved")
      ⟨5, 9, 3, BStatus.confirmed, none⟩ rfl (Or.inr rfl) (Or.inr rfl) rfl
  exact ⟨h.1, h.2.2⟩

/-- C8: create, cancel, and reschedule fail with InvalidState when the
relevant slot is past (create: the target slot; cancel: the booking slot when
it exists; reschedule: the current slot, and otherwise the new slot), and
complete fails with InvalidState when the booking slot exists and has not
elapsed. -/
theorem c8_past_guards :
    (∀ (db : DB) (now : Int) (u sid : Nat) (s : SlotDoc),
      findSlot db sid = some s → isSlotInPast s now = true →
      (createBooking db now u sid).1 = Res.invalidState "Cannot book a slot in the past")
    ∧ (∀ (db : DB) (now : Int) (a : Actor) (bid : Nat) (r : Option String)
        (b : Booking) (cs : SlotDoc),
        findBooking db bid = some b →
        (a.isAdmin = true ∨ b.userId = a.id) →
        (b.bookingStatus = BStatus.pending ∨ b.bookingStatus = BStatus.confirmed) →
        findSlot db b.slotId = some cs → isSlotInPast cs now = true →
        (cancelBooking db now a bid r).1
          = Res.invalidState "Cannot cancel a booking for a past slot")
    ∧ (∀ (db : DB) (now : Int) (a : Actor) (bid nsid : Nat) (b : Booking) (cs : SlotDoc),
        findBooking db bid = some b → b.userId = a.id →
        (b.bookingStatus = BStatus.pending ∨ b.bookingStatus = BStatus.confirmed) →
        findSlot db b.slotId = some cs → isSlotInPast cs now = true →
        (rescheduleBooking db now a bid nsid).1
          = Res.invalidState "Cannot reschedule a booking for a past slot")
    ∧ (∀ (db : DB) (now : Int) (a : Actor) (bid nsid : Nat) (b : Booking) (ns : SlotDoc),
        findBooking db bid = some b → b.userId = a.id →
        (b.bookingStatus = BStatus.pending ∨ b.bookingStatus = BStatus.confirmed) →
        (∀ cs, findSlot db b.slotId = some cs → isSlotInPast cs now = false) →
        findSlot db nsid = some ns → isSlotInPast ns now = true →
        (rescheduleBooking db now a bid nsid).1
          = Res.invalidState "Cannot reschedule to a past slot")
    ∧ (∀ (db : DB) (now : Int) (bid : Nat) (b : Booking) (s : SlotDoc),
        findBooking db bid = some b →
        (b.bookingStatus = BStatus.pending ∨ b.bookingStatus = BStatus.confirmed) →
        findSlot db b.slotId = some s → isSlotInPast s now = false →
        (completeBooking db now bid).1
          = Res.invalidState "Cannot complete a booking for a future slot") := by
  refine ⟨?_, ?_, ?_, ?_, ?_⟩
  · intro db now u sid s hs hpast
    simp [createBooking, hs, hpast]
  · intro db now a bid r b cs hb hauth hact hcs hpast
    have hnc : ¬ (¬ a.isAdmin = true ∧ b.userId ≠ a.id) := by
      rcases hauth with h | h
      · intro hc; exact hc.1 h
      · intro hc; exact hc.2 h
    have hs1 : ¬ b.bookingStatus = BStatus.cancelled := by rcases hact with h | h <;> simp [h]
    have hs2 : ¬ b.bookingStatus = BStatus.completed := by rcases hact with h | h <;> simp [h]
    have hs3 : ¬ b.bookingStatus = BStatus.expired := by rcases hact with h | h <;> simp [h]
    simp only [cancelBooking, hb]
    rw [if_neg hnc, if_neg hs1, if_neg hs2, if_neg hs3]
    simp only [hcs]
    rw [if_pos hpast]
  · intro db now a bid nsid b cs hb hown hact hcs hpast
    have hs1 : ¬ b.bookingStatus = BStatus.cancelled := by rcases hact with h | h <;> simp [h]
    have hs2 : ¬ b.bookingStatus = BStatus.completed := by rcases hact with h | h <;> simp [h]
    have hs3 : ¬ b.bookingStatus = BStatus.expired := by rcases hact with h | h <;> simp [h]
    simp only [rescheduleBooking, hb]
    rw [if_neg (by simp [hown]), if_neg hs1, if_neg hs2, if_neg hs3]
    simp only [hcs]
    rw [if_pos hpast]
  · intro db now a bid nsid b ns hb hown hact hnotpast hns hpast
    have hs1 : ¬ b.bookingStatus = BStatus.cancelled := by rcases hact with h | h <;> simp [h]
    have hs2 : ¬ b.bookingStatus = BStatus.completed := by rcases hact with h | h <;> simp [h]
    have hs3 : ¬ b.bookingStatus = BStatus.expired := by rcases hact with h | h <;> simp [h]
    simp only [rescheduleBooking, hb]
    rw [if_neg (by simp [hown]), if_neg hs1, if_neg hs2, if_neg hs3]
    have hcur : (match findSlot db b.slotId with
        | some cs => isSlotInPast cs now
        | none => false) = false := by
      cases hfc : findSlot db b.slotId with
      | none => rfl
      | some cs => exact hnotpast cs hfc
    simp only [hcur, Bool.false_eq_true, if_false, hns]
    rw [if_pos hpast]
  · intro db now bid b s hb hact hs hnot
    have hs1 : ¬ b.bookingStatus = BStatus.completed := by rcases hact with h | h <;> simp [h]
    have hs2 : ¬ b.bookingStatus = BStatus.cancelled := by rcases hact with h | h <;> simp [h]
    have hs3 : ¬ b.bookingStatus = BStatus.expired := by rcases hact with h | h <;> simp [h]
    simp only [completeBooking, hb]
    rw [if_neg hs1, if_neg hs2, if_neg hs3]
    simp only [hs, hnot]
    rfl

/-- C8 witness: each guard fires on guardDb at instant 1000 (slots 2 and 3
end at instant 570 and are past; slot 1 ends at instant 14970 and is not). -/
theorem c8_past_guards_witness :
    (createBooking guardDb 1000 9 2).1 = Res.invalidState "Cannot book a slot in the past"
    ∧ (cancelBooking guardDb 1000 ⟨5, false⟩ 1 none).1
        = Res.invalidState "Cannot cancel a booking for a past slot"
    ∧ (rescheduleBooking guardDb 1000 ⟨5, false⟩ 1 2).1
        = Res.invalidState "Cannot reschedule a booking for a past slot"
    ∧ (rescheduleBooking guardDb 1000 ⟨5, false⟩ 0 2).1
        = Res.invalidState "Cannot reschedule to a past slot"
    ∧ (completeBooking guardDb 1000 0).1
        = Res.invalidState "Cannot complete a booking for a future slot" := by
  refine ⟨?_, ?_, ?_, ?_, ?_⟩
  · exact c8_past_guards.1 guardDb 1000 9 2 pastSlot rfl (by decide)
  · exact c8_past_guards.2.1 guardDb 1000 ⟨5, false⟩ 1 none
      ⟨5, 3, 3, BStatus.confirmed, none⟩ { pastSlot with status := SlotStatus.booked }
      rfl (Or.inr rfl) (Or.inr rfl) rfl (by decide)
  · exact c8_past_guards.2.2.1 guardDb 1000 ⟨5, false⟩ 1 2
      ⟨5, 3, 3, BStatus.confirmed, none⟩ { pastSlot with status := SlotStatus.booked }
      rfl rfl (Or.inr rfl) rfl (by decide)
  · refine c8_past_guards.2.2.2.1 guardDb 1000 ⟨5, false⟩ 0 2
      ⟨5, 1, 3, BStatus.confirmed, none⟩ pastSlot
      rfl rfl (Or.inr rfl) ?_ rfl (by decide)
    intro cs hcs
    have hcv : cs = { slotFix with status := SlotStatus.booked } := by
      have : (some { slotFix with status := SlotStatus.booked } : Option SlotDoc) = some cs := hcs
      exact (Option.some.inj this).symm
    rw [hcv]
    decide
  · exact c8_past_guards.2.2.2.2 guardDb 1000 0
      ⟨5, 1, 3, BStatus.confirmed, none⟩ { slotFix with status := SlotStatus.booked }
      rfl (Or.inr rfl) rfl (by decide)

/-- C4: a 09:00 to 10:00 window walked in 30-minute increments emits exactly
the slots 09:00 to 09:30 and 09:30 to 10:00, a 09:00 to 09:45 window emits
exactly 09:00 to 09:30 (the 15-minute remainder is dropped), and in general a
pair belongs to the walk exactly when it is some increment (start + k dur,
start + (k+1) dur) whose end fits inside the window; the full generator on a
single matching day materialises exactly those slots. -/
theorem c4_window_emission :
    windowSlots 30 600 540 = [(540, 570), (570, 600)]
    ∧ windowSlots 30 585 540 = [(540, 570)]
    ∧ (∀ (dur e t : Nat) (p : Nat × Nat), 0 < dur →
        (p ∈ windowSlots dur e t ↔
          ∃ k, p = (t + k * dur, t + (k + 1) * dur) ∧ t + (k + 1) * dur ≤ e))
    ∧ generateSlotsForDoctor [] genDoctor (DateVal.valid 1) (DateVal.valid 1)
        (some (JsNum.num 30)) "UTC"
        = Except.ok (2, [⟨7, 1, 540, 570, SlotStatus.available, "UTC"⟩,
                         ⟨7, 1, 570, 600, SlotStatus.available, "UTC"⟩])
    ∧ generateSlotsForDoctor [] genDoctor45 (DateVal.valid 1) (DateVal.valid 1)
        (some (JsNum.num 30)) "UTC"
        = Except.ok (1, [⟨7, 1, 540, 570, SlotStatus.available, "UTC"⟩]) := by
  refine ⟨rfl, rfl, ?_, rfl, rfl⟩
  intro dur e t p hd
  exact mem_windowSlots hd e t p

/-- C4 witness: the first emitted slot of the 09:00 to 10:00 window is an
increment that fits, via the general characterisation at duration 30. -/
theorem c4_window_emission_witness :
    (540, 570) ∈ windowSlots 30 600 540 :=
  (c4_window_emission.2.2.1 30 600 540 (540, 570) (by decide)).mpr
    ⟨0, by decide, by decide⟩

/-- C5: generation is idempotent: a successful run creates exactly the
records it adds (createdCount counts only slots that did not previously
exist), preserves key uniqueness (no duplicate (doctor, date, start-time)
records), makes the final key set the union of initial and emitted keys (so a
rerun over the same or an overlapping range adds only genuinely new slots),
and a second run with the same arguments returns createdCount 0 leaving the
store unchanged; valid ordered dates with a positive effective duration never
produce an error. -/
theorem c5_generation_idempotent :
    (∀ (store : List GenSlot) (doc : DoctorRec) (s e : Int) (dms : Option JsNum)
        (tz : String) (c : Nat) (store2 : List GenSlot),
      generateSlotsForDoctor store doc (DateVal.valid s) (DateVal.valid e) dms tz
          = Except.ok (c, store2) →
      generateSlotsForDoctor store2 doc (DateVal.valid s) (DateVal.valid e) dms tz
          = Except.ok (0, store2)
      ∧ c + store.length = store2.length
      ∧ (KeysNodup store → KeysNodup store2)
      ∧ ∀ r, hasKey store2 r
          = (hasKey store r ||
             (emittedSlots doc s e (effectiveDuration dms).toNat tz).any
               (fun q => sameKey q r)))
    ∧ (∀ (store : List GenSlot) (doc : DoctorRec) (s e : Int) (dms : Option JsNum)
        (tz : String), s ≤ e → 0 < effectiveDuration dms →
        ∃ c store2,
          generateSlotsForDoctor store doc (DateVal.valid s) (DateVal.valid e) dms tz
            = Except.ok (c, store2)) := by
  constructor
  · intro store doc s e dms tz c store2 h
    simp only [generateSlotsForDoctor, toDay] at h
    by_cases h1 : e < s
    · rw [if_pos h1] at h
      exact absurd h (by simp)
    · rw [if_neg h1] at h
      by_cases h2 : 0 < effectiveDuration dms
      · rw [if_pos h2] at h
        have hins : insertAll store (emittedSlots doc s e (effectiveDuration dms).toNat tz)
            = (c, store2) := by
          exact Except.ok.inj h
        refine ⟨?_, ?_, ?_, ?_⟩
        · simp only [generateSlotsForDoctor, toDay]
          rw [if_neg h1, if_pos h2]
          congr 1
          apply insertAll_noop
          intro r hr
          have hk := insertAll_hasKey r (emittedSlots doc s e (effectiveDuration dms).toNat tz) store
          rw [hins] at hk
          have hany : (emittedSlots doc s e (effectiveDuration dms).toNat tz).any
              (fun q => sameKey q r) = true :=
            List.any_eq_true.mpr ⟨r, hr, sameKey_refl r⟩
          rw [show hasKey store2 r
              = (hasKey store r || (emittedSlots doc s e (effectiveDuration dms).toNat tz).any
                  (fun q => sameKey q r)) from hk, hany]
          simp
        · have hl := insertAll_length (emittedSlots doc s e (effectiveDuration dms).toNat tz) store
          rw [hins] at hl
          exact hl
        · intro hnd
          have hn := insertAll_nodup (emittedSlots doc s e (effectiveDuration dms).toNat tz) store hnd
          rw [hins] at hn
          exact hn
        · intro r
          have hk := insertAll_hasKey r (emittedSlots doc s e (effectiveDuration dms).toNat tz) store
          rw [hins] at hk
          exact hk
      · rw [if_neg h2] at h
        exact absurd h (by simp)
  · intro store doc s e dms tz hse hdur
    refine ⟨(insertAll store (emittedSlots doc s e (effectiveDuration dms).toNat tz)).1,
            (insertAll store (emittedSlots doc s e (effectiveDuration dms).toNat tz)).2, ?_⟩
    simp only [generateSlotsForDoctor, toDay]
    rw [if_neg (by omega), if_pos hdur]

/-- C5 witness: rerunning the generation that produced the two 09:00 to 10:00
slots creates nothing and leaves the store unchanged. -/
theorem c5_generation_idempotent_witness :
    generateSlotsForDoctor
        [⟨7, 1, 540, 570, SlotStatus.available, "UTC"⟩,
         ⟨7, 1, 570, 600, SlotStatus.available, "UTC"⟩]
        genDoctor (DateVal.valid 1) (DateVal.valid 1) (some (JsNum.num 30)) "UTC"
      = Except.ok (0, [⟨7, 1, 540, 570, SlotStatus.available, "UTC"⟩,
                       ⟨7, 1, 570, 600, SlotStatus.available, "UTC"⟩]) :=
  (c5_generation_idempotent.1 [] genDoctor 1 1 (some (JsNum.num 30)) "UTC" 2
    [⟨7, 1, 540, 570, SlotStatus.available, "UTC"⟩,
     ⟨7, 1, 570, 600, SlotStatus.available, "UTC"⟩] rfl).1

/-- C2 counterexample: in conflictDb the partial unique index rejects moving
booking 1 onto slot 1 (booking 0 is active there), and rescheduleBooking
surfaces the generic server error, not a Conflict: the claimed translation
does not hold for the reschedule operation. -/
theorem c2_counterexample :
    (findBooking conflictDb 1).map (fun bk => bk.bookingStatus.isActive) = some true
    ∧ activeOnExcept conflictDb 1 1 = true
    ∧ (rescheduleCommit conflictDb 1 2 1).1
        = Res.serverError "Server error while rescheduling booking"
    ∧ (rescheduleCommit conflictDb 1 2 1).2.bookings = conflictDb.bookings
    ∧ (rescheduleCommit conflictDb 1 2 1).2.slots = conflictDb.slots
    ∧ ∀ m, (rescheduleCommit conflictDb 1 2 1).1 ≠ Res.conflict m := by
  refine ⟨rfl, rfl, rfl, rfl, rfl, ?_⟩
  intro m h
  rw [show (rescheduleCommit conflictDb 1 2 1).1
      = Res.serverError "Server error while rescheduling booking" from rfl] at h
  exact Res.noConfusion h

/-- C2 amended: the duplicate-key translation exists only for create: when
the partial unique index rejects the insert, createCommit aborts and returns
the same Conflict message the pre-check layer produces; when it rejects the
reschedule update, rescheduleCommit aborts and surfaces the generic server
error instead. -/
theorem c2_constraint_translation :
    (∀ (db : DB) (u sid docId : Nat), activeOn db sid = true →
      createCommit db u sid docId = (Res.conflict "Slot is already booked", db))
    ∧ (∀ (db : DB) (now : Int) (u sid : Nat) (s : SlotDoc),
        findSlot db sid = some s → isSlotInPast s now = false →
        s.status = SlotStatus.available → activeOn db sid = true →
        (createBooking db now u sid).1 = Res.conflict "Slot is already booked")
    ∧ (∀ (db : DB) (bid oldSid newSid : Nat) (bk : Booking),
        findBooking db bid = some bk → bk.bookingStatus.isActive = true →
        activeOnExcept db newSid bid = true →
        rescheduleCommit db bid oldSid newSid
          = (Res.serverError "Server error while rescheduling booking", db)) := by
  refine ⟨?_, ?_, ?_⟩
  · intro db u sid docId h
    exact createCommit_conflict u sid docId h
  · intro db now u sid s hs hnp hav hact
    simp [createBooking, hs, hnp, hav, hact]
  · intro db bid oldSid newSid bk hb hact hex
    simp [rescheduleCommit, hb, hact, hex]

/-- C2 amended witness: on conflictDb the create commit on slot 1 returns the
Conflict of the pre-check, while the reschedule commit onto slot 1 returns
the generic server error. -/
theorem c2_constraint_translation_witness :
    createCommit conflictDb 9 1 3 = (Res.conflict "Slot is already booked", conflictDb)
    ∧ rescheduleCommit conflictDb 1 2 1
        = (Res.serverError "Server error while rescheduling booking", conflictDb) :=
  ⟨c2_constraint_translation.1 conflictDb 9 1 3 (by decide),
   c2_constraint_translation.2.2 conflictDb 1 2 1 ⟨2, 2, 3, BStatus.confirmed, none⟩
     rfl (by decide) (by decide)⟩

theorem isSlotInPast_set_status (s : SlotDoc) (st : SlotStatus) (now : Int) :
    isSlotInPast { s with status := st } now = isSlotInPast s now := by
  cases s
  rfl

/-- C3: cancelling a pending or confirmed booking whose slot exists and is
not past, performed by the owner or an administrator, succeeds as one
transactional unit: the booking becomes cancelled with the given reason
stored and the referenced slot becomes available again, and a subsequent
create on that slot by any user succeeds. -/
theorem c3_cancel_restores (db : DB) (now : Int) (actor : Actor) (bid : Nat)
    (reason : Option String) (b : Booking) (s : SlotDoc)
    (hb : findBooking db bid = some b)
    (hauth : actor.isAdmin = true ∨ b.userId = actor.id)
    (hact : b.bookingStatus = BStatus.pending ∨ b.bookingStatus = BStatus.confirmed)
    (hs : findSlot db b.slotId = some s)
    (hnp : isSlotInPast s now = false)
    (hdoc : s.doctorId ∈ db.doctors)
    (hcnt : activeCount db b.slotId ≤ 1) :
    (cancelBooking db now actor bid reason).1 = Res.ok bid
    ∧ findBooking (cancelBooking db now actor bid reason).2 bid
        = some { b with bookingStatus := BStatus.cancelled,
                        cancellationReason := cancelReasonUpdate reason b.cancellationReason }
    ∧ findSlot (cancelBooking db now actor bid reason).2 b.slotId
        = some { s with status := SlotStatus.available }
    ∧ ∀ u, (createBooking (cancelBooking db now actor bid reason).2 now u b.slotId).1
        = Res.ok (cancelBooking db now actor bid reason).2.nextBookingId := by
  have hnc : ¬ (¬ actor.isAdmin = true ∧ b.userId ≠ actor.id) := by
    rcases hauth with h | h
    · intro hc; exact hc.1 h
    · intro hc; exact hc.2 h
  have hs1 : ¬ b.bookingStatus = BStatus.cancelled := by rcases hact with h | h <;> simp [h]
  have hs2 : ¬ b.bookingStatus = BStatus.completed := by rcases hact with h | h <;> simp [h]
  have hs3 : ¬ b.bookingStatus = BStatus.expired := by rcases hact with h | h <;> simp [h]
  have hred : cancelBooking db now actor bid reason = cancelCommit db bid b.slotId reason := by
    simp only [cancelBooking, hb]
    rw [if_neg hnc, if_neg hs1, if_neg hs2, if_neg hs3]
    simp only [hs]
    rw [if_neg (by simp [hnp])]
  have hred2 : cancelCommit db bid b.slotId reason
      = (Res.ok bid,
         setSlotStatus
           (updBooking db bid (fun bk =>
             { bk with bookingStatus := BStatus.cancelled,
                       cancellationReason := cancelReasonUpdate reason bk.cancellationReason }))
           b.slotId SlotStatus.available) := by
    simp only [cancelCommit, findSlot_updBooking, hs]
  rw [hred, hred2]
  have hmem : (bid, b) ∈ db.bookings := findBooking_mem hb
  have hactb : b.bookingStatus.isActive = true := by
    rcases hact with h | h <;> simp [h, BStatus.isActive]
  have hnact : activeOn
      (setSlotStatus
        (updBooking db bid (fun bk =>
          { bk with bookingStatus := BStatus.cancelled,
                    cancellationReason := cancelReasonUpdate reason bk.cancellationReason }))
        b.slotId SlotStatus.available) b.slotId = false := by
    rw [activeOn, setSlotStatus_bookings, List.any_eq_false]
    intro x hx
    simp only [updBooking, List.mem_map] at hx
    obtain ⟨e0, he0, rfl⟩ := hx
    by_cases hk : e0.1 = bid
    · rw [if_pos hk]
      simp [BStatus.isActive]
    · rw [if_neg hk]
      intro hpx
      have hpa : e0.2.bookingStatus.isActive = true ∧ e0.2.slotId = b.slotId := by
        simpa using hpx
      have htwo : 2 ≤ db.bookings.countP
          (fun e => e.2.bookingStatus.isActive && e.2.slotId == b.slotId) := by
        apply two_le_countP (x := (bid, b)) (y := e0) hmem he0
        · intro heq
          exact hk (by rw [← heq])
        · simp [hactb]
        · simp [hpa.1, hpa.2]
      have := hcnt
      simp only [activeCount] at this
      omega
  refine ⟨rfl, ?_, ?_, ?_⟩
  · rw [findBooking_setSlotStatus, findBooking_updBooking_self, hb]
    rfl
  · rw [findSlot_setSlotStatus_self, findSlot_updBooking, hs]
    rfl
  · intro u
    have hsl : findSlot
        (setSlotStatus
          (updBooking db bid (fun bk =>
            { bk with bookingStatus := BStatus.cancelled,
                      cancellationReason := cancelReasonUpdate reason bk.cancellationReason }))
          b.slotId SlotStatus.available) b.slotId
        = some { s with status := SlotStatus.available } := by
      rw [findSlot_setSlotStatus_self, findSlot_updBooking, hs]
      rfl
    simp only [createBooking, hsl]
    rw [if_neg (by simp [isSlotInPast_set_status, hnp]),
      if_neg (by simp)]
    rw [if_neg (by simp [hnact]), if_neg (by simpa using hdoc)]
    exact (createCommit_ok u b.slotId s.doctorId hnact).1

/-- C3 witness: in bookedDb, the owner cancels booking 0 and user 8 can
immediately rebook slot 1. -/
theorem c3_cancel_restores_witness :
    (cancelBooking bookedDb 100 ⟨5, false⟩ 0 none).1 = Res.ok 0
    ∧ findSlot (cancelBooking bookedDb 100 ⟨5, false⟩ 0 none).2 1
        = some { { slotFix with status := SlotStatus.booked }
                 with status := SlotStatus.available }
    ∧ (createBooking (cancelBooking bookedDb 100 ⟨5, false⟩ 0 none).2 100 8 1).1
        = Res.ok (cancelBooking bookedDb 100 ⟨5, false⟩ 0 none).2.nextBookingId := by
  have h := c3_cancel_restores bookedDb 100 ⟨5, false⟩ 0 none
      ⟨5, 1, 3, BStatus.confirmed, none⟩ { slotFix with status := SlotStatus.booked }
      rfl (Or.inr rfl) (Or.inr rfl) rfl (by decide) (by decide) (by decide)
  exact ⟨h.1, h.2.2.1, h.2.2.2 8⟩

/-- C1: in every state reachable from an initial store with no bookings by
any interleaving of operations — including commits whose pre-checks raced
against stale states — at most one booking with status pending or confirmed
references any given slot; and of any number of create commits serialized
against one slot, at most one observes success while every other result is
the already-booked Conflict. -/
theorem c1_no_double_booking :
    (∀ (slots : List (Nat × SlotDoc)) (doctors : List Nat) (ops : List Op) (sid : Nat),
      activeCount (run (initDB slots doctors) ops) sid ≤ 1)
    ∧ (∀ (db : DB) (sid : Nat) (users : List (Nat × Nat)),
        ((raceCreate db sid users).1.countP Res.isOk ≤ 1)
        ∧ ∀ r ∈ (raceCreate db sid users).1,
            r.isOk = true ∨ r = Res.conflict "Slot is already booked") := by
  constructor
  · intro slots doctors ops sid
    exact (inv_run ops (initDB slots doctors) (inv_initDB slots doctors)).2 sid
  · intro db sid users
    exact raceCreate_spec sid users db

/-- C1 witness: three create commits racing on slot 1 of dbFix produce at
most one success, and the conflict result observed by the losers is the
already-booked Conflict. -/
theorem c1_no_double_booking_witness :
    ((raceCreate dbFix 1 [(5, 3), (6, 3), (7, 3)]).1.countP Res.isOk ≤ 1)
    ∧ ((Res.conflict "Slot is already booked").isOk = true
        ∨ Res.conflict "Slot is already booked"
            = Res.conflict "Slot is already booked") := by
  refine ⟨(c1_no_double_booking.2 dbFix 1 [(5, 3), (6, 3), (7, 3)]).1, ?_⟩
  exact (c1_no_double_booking.2 dbFix 1 [(5, 3), (6, 3), (7, 3)]).2
    (Res.conflict "Slot is already booked") (by decide)

end DoctorApp
